import Mathlib

/-!
Shallow embedding of the 3D Game of Life simulation core from `src/main.rs`
(repository `game-of-life-3d`): the cell grid, the 26-neighbor counting
algorithm `live_neighbors`, the per-tick transition pass
`print_position_system`, and the constructor `Grid::new`.

Machine integers (`i32`) are modelled as `Int`; every quantity the code
computes (neighbor counts bounded by 26, grid coordinates) is far from the
`i32` range boundary, so no wrap-around modelling is needed.  The HashMap
`CellGrid` is modelled extensionally as `Position → Option Cell`, built by
the same fold of insertions the Rust constructor performs.  The
`rand::random()` coin flips of the constructor are abstracted as an explicit
`seed : Position → CellState` argument.  The Bevy ECS query that drives the
tick yields the spawned `(Position, Visibility)` entities in an unspecified
order, so the tick takes the processing order as an explicit
`List Position` argument; the `.unwrap()` on `get_cell_mut` is modelled by
an `Option` result (`none` = panic).
-/

namespace GoL

/-- `enum CellState { Alive, Dead }` from the source. -/
inductive CellState where
  | Alive
  | Dead
  deriving DecidableEq, Repr

/-- `struct Cell { state: CellState }` from the source. -/
structure Cell where
  state : CellState
  deriving DecidableEq, Repr

/-- `Cell::new` from the source. -/
def Cell.new (state : CellState) : Cell := ⟨state⟩

/-- `Cell::is_alive`: `self.state == CellState::Alive`. -/
def Cell.is_alive (c : Cell) : Bool := c.state == CellState.Alive

/-- `struct Position { x: i32, y: i32, z: i32 }` from the source. -/
structure Position where
  x : Int
  y : Int
  z : Int
  deriving DecidableEq, Repr

/-- `Position::new` from the source. -/
def Position.new (x y z : Int) : Position := ⟨x, y, z⟩

/-- `type CellGrid = HashMap<Position, Cell>`, modelled extensionally. -/
abbrev CellGrid := Position → Option Cell

/-- `HashMap::new()`: the empty map. -/
def CellGrid.empty : CellGrid := fun _ => none

/-- `HashMap::insert`: later insertions shadow earlier ones. -/
def CellGrid.insert (g : CellGrid) (k : Position) (v : Cell) : CellGrid :=
  fun q => if q = k then some v else g q

/-- `struct Grid { cells: CellGrid }` from the source. -/
structure Grid where
  cells : CellGrid

/-- The rule thresholds from the source (Carter Bays' 3D rule). -/
def EB : Int := 4

/-- Birth lower threshold from the source. -/
def FB : Int := 5

/-- Survival upper threshold from the source. -/
def EH : Int := 5

/-- Birth upper threshold from the source. -/
def FH : Int := 5

/-- The Rust range `0..n` over `i32`, as a list of `Int` (empty when `n ≤ 0`). -/
def intRange (n : Int) : List Int := (List.range n.toNat).map (Nat.cast : Nat → Int)

/-- The coordinates visited by the three nested loops of `Grid::new`
(`x` outermost, `z` innermost), in visit order. -/
def boxPositions (width height depth : Int) : List Position :=
  (intRange width).flatMap fun x =>
    (intRange height).flatMap fun y =>
      (intRange depth).map fun z => Position.new x y z

/-- `Grid::new(width, height, depth)` from the source: insert one cell per
box coordinate.  The `rand::random()` state choice is the `seed` argument. -/
def Grid.new (width height depth : Int) (seed : Position → CellState) : Grid :=
  ⟨(boxPositions width height depth).foldl
      (fun cells position => cells.insert position (Cell.new (seed position)))
      CellGrid.empty⟩

/-- `Grid::get_cell` from the source: `self.cells.get(position)`. -/
def Grid.get_cell (g : Grid) (position : Position) : Option Cell :=
  g.cells position

/-- `Grid::get_cell_mut` from the source: `self.cells.get_mut(position)`;
the lookup itself is the same as `get_cell`, mutation is modelled at the
call site in the tick. -/
def Grid.get_cell_mut (g : Grid) (position : Position) : Option Cell :=
  g.cells position

/-- The loop range `-1..=1` of `live_neighbors`. -/
def deltas : List Int := [-1, 0, 1]

/-- `live_neighbors(grid, position)` from the source: three nested loops
over `-1..=1`, `continue` at the center offset, count the present cells
that are alive. -/
def live_neighbors (grid : Grid) (position : Position) : Int :=
  deltas.foldl (fun alives x =>
    deltas.foldl (fun alives y =>
      deltas.foldl (fun alives z =>
        if x = 0 ∧ y = 0 ∧ z = 0 then alives
        else
          match grid.get_cell (Position.new (position.x + x) (position.y + y) (position.z + z)) with
          | some cell => alives + (if cell.is_alive then 1 else 0)
          | none => alives) alives) alives) 0

/-- The `match cell.state` block of `print_position_system`: the per-cell
transition rule given the computed neighbor count `alive`. -/
def stepCell (state : CellState) (alive : Int) : CellState :=
  match state with
  | CellState.Alive => if EB ≤ alive ∧ alive ≤ EH then CellState.Alive else CellState.Dead
  | CellState.Dead => if FB ≤ alive ∧ alive ≤ FH then CellState.Alive else CellState.Dead

/-- One iteration of the query loop in `print_position_system`: count the
neighbors against the *current* (possibly already partially updated) grid,
then write the cell's new state in place.  `none` models the `.unwrap()`
panic when the position has no cell. -/
def tickCell (grid : Grid) (position : Position) : Option Grid :=
  let alive := live_neighbors grid position
  match grid.get_cell_mut position with
  | none => none
  | some cell =>
      some ⟨fun q => if q = position then some (Cell.new (stepCell cell.state alive))
                     else grid.cells q⟩

/-- `print_position_system` from the source: a single in-place pass over the
queried positions, in the (ECS-determined) order given by `order`. -/
def print_position_system (grid : Grid) : List Position → Option Grid
  | [] => some grid
  | position :: rest =>
      match tickCell grid position with
      | none => none
      | some grid2 => print_position_system grid2 rest

/-- Several consecutive ticks, one processing order per tick. -/
def runTicks (grid : Grid) : List (List Position) → Option Grid
  | [] => some grid
  | o :: os =>
      match print_position_system grid o with
      | none => none
      | some g2 => runTicks g2 os

/-- Modelled from the spec: the synchronous ("pre-tick snapshot") update the
specification describes in §4.2/§5 — every cell's next state is computed
from the generation-N grid only.  Used to compare the source's in-place
single pass against the specified semantics. -/
def tickSnapshot (grid : Grid) : Grid :=
  ⟨fun p =>
    match grid.cells p with
    | none => none
    | some cell => some (Cell.new (stepCell cell.state (live_neighbors grid p)))⟩

/-! ### Characterizing `Grid.new` -/

/-- The box `[0,width) × [0,height) × [0,depth)` of the spec. -/
def inBox (width height depth : Int) (p : Position) : Prop :=
  0 ≤ p.x ∧ p.x < width ∧ 0 ≤ p.y ∧ p.y < height ∧ 0 ≤ p.z ∧ p.z < depth

instance (width height depth : Int) (p : Position) : Decidable (inBox width height depth p) := by
  unfold inBox
  infer_instance

lemma mem_intRange (n q : Int) : q ∈ intRange n ↔ 0 ≤ q ∧ q < n := by
  unfold intRange
  rw [List.mem_map]
  constructor
  · rintro ⟨k, hk, rfl⟩
    rw [List.mem_range] at hk
    omega
  · intro hq
    exact ⟨q.toNat, List.mem_range.mpr (by omega), by omega⟩

lemma mem_boxPositions (width height depth : Int) (q : Position) :
    q ∈ boxPositions width height depth ↔ inBox width height depth q := by
  simp only [boxPositions, List.mem_flatMap, List.mem_map, mem_intRange]
  constructor
  · rintro ⟨x, hx, y, hy, z, hz, rfl⟩
    exact ⟨hx.1, hx.2, hy.1, hy.2, hz.1, hz.2⟩
  · intro hq
    exact ⟨q.x, ⟨hq.1, hq.2.1⟩, q.y, ⟨hq.2.2.1, hq.2.2.2.1⟩, q.z,
      ⟨hq.2.2.2.2.1, hq.2.2.2.2.2⟩, by cases q; rfl⟩

lemma foldl_insert_lookup (seed : Position → CellState) (l : List Position)
    (g0 : CellGrid) (q : Position) :
    (l.foldl (fun cells position => cells.insert position (Cell.new (seed position))) g0) q
      = if q ∈ l then some (Cell.new (seed q)) else g0 q := by
  induction l generalizing g0 with
  | nil => simp
  | cons k l ih =>
      rw [List.foldl_cons, ih]
      by_cases hql : q ∈ l
      · simp [hql, List.mem_cons]
      · by_cases hqk : q = k
        · subst hqk
          simp [hql, CellGrid.insert]
        · simp [hql, hqk, CellGrid.insert, List.mem_cons]

/-- Lookup in a freshly constructed grid: a cell exactly inside the box. -/
lemma Grid.new_get_cell (width height depth : Int) (seed : Position → CellState)
    (q : Position) :
    (Grid.new width height depth seed).get_cell q
      = if inBox width height depth q then some (Cell.new (seed q)) else none := by
  show (boxPositions width height depth).foldl
      (fun cells position => cells.insert position (Cell.new (seed position)))
      CellGrid.empty q = _
  rw [foldl_insert_lookup]
  by_cases hq : inBox width height depth q
  · rw [if_pos ((mem_boxPositions width height depth q).mpr hq), if_pos hq]
  · rw [if_neg (fun hm => hq ((mem_boxPositions width height depth q).mp hm)), if_neg hq]
    rfl

/-! ### The 26-neighborhood -/

/-- The 26 offsets the loops of `live_neighbors` actually count: the full
`3 × 3 × 3` cube of offsets minus the center, in loop order. -/
def mooreOffsets : List (Int × Int × Int) :=
  (deltas.flatMap fun x => deltas.flatMap fun y => deltas.map fun z => (x, y, z)).filter
    (fun t => decide (¬(t.1 = 0 ∧ t.2.1 = 0 ∧ t.2.2 = 0)))

/-- Apply an offset to a coordinate. -/
def translate (p : Position) (t : Int × Int × Int) : Position :=
  Position.new (p.x + t.1) (p.y + t.2.1) (p.z + t.2.2)

/-- The 26 coordinates `live_neighbors` examines around `p`, in loop order. -/
def mooreList (p : Position) : List Position := mooreOffsets.map (translate p)

/-- Whether the grid holds a live cell at `q` (absent counts as not alive). -/
def isAliveAt (g : Grid) (q : Position) : Bool :=
  match g.get_cell q with
  | some cell => cell.is_alive
  | none => false

/-- Chebyshev distance between two coordinates. -/
def chebDist (p q : Position) : Nat :=
  max (max (p.x - q.x).natAbs (p.y - q.y).natAbs) (p.z - q.z).natAbs

lemma live_neighbors_eq_foldl (g : Grid) (p : Position) :
    live_neighbors g p = (mooreList p).foldl (fun alives q =>
      match g.get_cell q with
      | some cell => alives + (if cell.is_alive then 1 else 0)
      | none => alives) 0 := rfl

lemma foldl_count (g : Grid) (l : List Position) (a : Int) :
    l.foldl (fun alives q =>
      match g.get_cell q with
      | some cell => alives + (if cell.is_alive then 1 else 0)
      | none => alives) a
      = a + ((l.filter (fun q => isAliveAt g q)).length : Int) := by
  induction l generalizing a with
  | nil => simp
  | cons q l ih =>
      rw [List.foldl_cons, ih]
      cases hq : g.get_cell q with
      | none => simp [List.filter_cons, isAliveAt, hq]
      | some cell =>
          cases hca : cell.is_alive with
          | false => simp [List.filter_cons, isAliveAt, hq, hca]
          | true =>
              simp only [List.filter_cons, isAliveAt, hq, hca, if_true, List.length_cons]
              push_cast
              ring

/-- `live_neighbors` counts exactly the live cells present on the 26
surrounding coordinates. -/
lemma live_neighbors_repr (g : Grid) (p : Position) :
    live_neighbors g p = (((mooreList p).filter (fun q => isAliveAt g q)).length : Int) := by
  rw [live_neighbors_eq_foldl, foldl_count, zero_add]

lemma max3_eq_one (u v w : Nat) :
    max (max u v) w = 1 ↔ (u ≤ 1 ∧ v ≤ 1 ∧ w ≤ 1 ∧ (u = 1 ∨ v = 1 ∨ w = 1)) := by
  simp only [Nat.max_def]
  split_ifs <;> omega

lemma mooreOffsets_eq :
    mooreOffsets =
      [(-1, -1, -1), (-1, -1, 0), (-1, -1, 1), (-1, 0, -1), (-1, 0, 0), (-1, 0, 1),
       (-1, 1, -1), (-1, 1, 0), (-1, 1, 1), (0, -1, -1), (0, -1, 0), (0, -1, 1),
       (0, 0, -1), (0, 0, 1), (0, 1, -1), (0, 1, 0), (0, 1, 1), (1, -1, -1),
       (1, -1, 0), (1, -1, 1), (1, 0, -1), (1, 0, 0), (1, 0, 1), (1, 1, -1),
       (1, 1, 0), (1, 1, 1)] := by decide

set_option maxHeartbeats 1000000 in
lemma mem_mooreList (p q : Position) : q ∈ mooreList p ↔ chebDist p q = 1 := by
  obtain ⟨a, b, c⟩ := p
  obtain ⟨d, e, f⟩ := q
  simp only [mooreList, mooreOffsets_eq, chebDist, max3_eq_one, List.map,
    List.mem_cons, List.not_mem_nil, translate, Position.new, Position.mk.injEq, or_false]
  constructor
  · intro h
    rcases h with h | h | h | h | h | h | h | h | h | h | h | h | h |
      h | h | h | h | h | h | h | h | h | h | h | h | h <;>
      (obtain ⟨h1, h2, h3⟩ := h; refine ⟨by omega, by omega, by omega, by omega⟩)
  · intro h
    obtain ⟨h1, h2, h3, h4⟩ := h
    have hd : d = a - 1 ∨ d = a ∨ d = a + 1 := by omega
    have he : e = b - 1 ∨ e = b ∨ e = b + 1 := by omega
    have hf : f = c - 1 ∨ f = c ∨ f = c + 1 := by omega
    rcases hd with rfl | rfl | rfl <;> rcases he with rfl | rfl | rfl <;>
      rcases hf with rfl | rfl | rfl <;>
      first
        | (exfalso; omega)
        | (repeat' first
            | exact Or.inl ⟨by omega, by omega, by omega⟩
            | exact ⟨by omega, by omega, by omega⟩
            | apply Or.inr)

lemma mooreList_length (p : Position) : (mooreList p).length = 26 := by
  rw [mooreList, List.length_map, mooreOffsets_eq]
  rfl

lemma translate_injective (p : Position) : Function.Injective (translate p) := by
  intro s t hst
  obtain ⟨s1, s2, s3⟩ := s
  obtain ⟨t1, t2, t3⟩ := t
  simp only [translate, Position.new, Position.mk.injEq] at hst
  simp only [Prod.mk.injEq]
  omega

lemma mooreList_nodup (p : Position) : (mooreList p).Nodup :=
  List.Nodup.map (translate_injective p) (by rw [mooreOffsets_eq]; decide)

lemma center_not_mem_mooreList (p : Position) : p ∉ mooreList p := by
  rw [mem_mooreList]
  simp [chebDist, sub_self]

lemma live_neighbors_nonneg (g : Grid) (p : Position) : 0 ≤ live_neighbors g p := by
  rw [live_neighbors_repr]
  exact Int.natCast_nonneg _

lemma live_neighbors_le_26 (g : Grid) (p : Position) : live_neighbors g p ≤ 26 := by
  rw [live_neighbors_repr]
  have h1 : ((mooreList p).filter (fun q => isAliveAt g q)).length ≤ (mooreList p).length :=
    List.length_filter_le _ _
  rw [mooreList_length p] at h1
  exact_mod_cast h1

/-- C4: `live_neighbors(grid, C)` equals the number of live cells among
exactly the 26 coordinates at Chebyshev distance 1 from `C` (the 3×3×3 cube
minus the center); the center itself is never counted, absent coordinates
contribute zero without error, and the result lies in `[0, 26]`. -/
theorem c4_live_neighbors_spec (g : Grid) (p : Position) :
    live_neighbors g p = (((mooreList p).filter (fun q => isAliveAt g q)).length : Int)
    ∧ (∀ q : Position, q ∈ mooreList p ↔ chebDist p q = 1)
    ∧ (mooreList p).Nodup
    ∧ (mooreList p).length = 26
    ∧ p ∉ mooreList p
    ∧ (∀ q : Position, g.get_cell q = none → isAliveAt g q = false)
    ∧ 0 ≤ live_neighbors g p ∧ live_neighbors g p ≤ 26 :=
  ⟨live_neighbors_repr g p, fun q => mem_mooreList p q, mooreList_nodup p,
    mooreList_length p, center_not_mem_mooreList p,
    fun q hq => by rw [isAliveAt, hq],
    live_neighbors_nonneg g p, live_neighbors_le_26 g p⟩

/-- C5: for positive dimensions, `Grid::new` yields a grid with a cell at
every in-box coordinate (the one the seed prescribes) and no entry outside
the box. -/
theorem c5_grid_new_coverage (width height depth : Int) (seed : Position → CellState)
    (hw : 0 < width) (hh : 0 < height) (hd : 0 < depth) (p : Position) :
    (inBox width height depth p →
        (Grid.new width height depth seed).get_cell p = some (Cell.new (seed p)))
    ∧ (¬ inBox width height depth p →
        (Grid.new width height depth seed).get_cell p = none) := by
  constructor <;> intro h <;> simp [Grid.new_get_cell, h]

theorem c5_grid_new_coverage_witness :
    ((0:Int) < 1 ∧ inBox 1 1 1 (Position.new 0 0 0) ∧ ¬ inBox 1 1 1 (Position.new 1 0 0))
    ∧ ((inBox 1 1 1 (Position.new 0 0 0) →
          (Grid.new 1 1 1 (fun _ => CellState.Dead)).get_cell (Position.new 0 0 0)
            = some (Cell.new CellState.Dead))
        ∧ (¬ inBox 1 1 1 (Position.new 0 0 0) →
          (Grid.new 1 1 1 (fun _ => CellState.Dead)).get_cell (Position.new 0 0 0) = none)) :=
  ⟨by decide,
    c5_grid_new_coverage 1 1 1 (fun _ => CellState.Dead) (by decide) (by decide) (by decide)
      (Position.new 0 0 0)⟩

/-- C6 counterexample: with a non-positive dimension the constructor does
not fail — its loops run zero times and it returns the degenerate empty
lattice (no entry even at the origin). -/
theorem c6_nonpositive_no_failure_counterexample :
    boxPositions 0 1 1 = []
    ∧ (Grid.new 0 1 1 (fun _ => CellState.Dead)).get_cell (Position.new 0 0 0) = none := by
  decide

/-- C6 amended: creating the lattice with any non-positive width, height,
or depth does not fail fast; `Grid::new` silently returns an empty lattice
with no cell entry anywhere. -/
theorem c6_nonpositive_yields_empty (width height depth : Int) (seed : Position → CellState)
    (hneg : width ≤ 0 ∨ height ≤ 0 ∨ depth ≤ 0) (p : Position) :
    (Grid.new width height depth seed).get_cell p = none := by
  rw [Grid.new_get_cell]
  rw [if_neg]
  intro hbox
  rcases hbox with ⟨h1, h2, h3, h4, h5, h6⟩
  omega

theorem c6_nonpositive_yields_empty_witness :
    (0 : Int) ≤ 0
    ∧ (Grid.new 0 1 1 (fun _ => CellState.Dead)).get_cell (Position.new 5 5 5) = none :=
  ⟨le_refl 0,
    c6_nonpositive_yields_empty 0 1 1 (fun _ => CellState.Dead) (Or.inl (le_refl 0))
      (Position.new 5 5 5)⟩

/-- C3: the per-cell transition rule with thresholds `EB=4, EH=5, FB=5,
FH=5`: an Alive cell stays Alive iff `4 ≤ n ≤ 5` and otherwise dies; a Dead
cell becomes Alive iff `n = 5` and otherwise stays Dead; in particular the
four literal cases at n = 4, 6, 5, 4. -/
theorem c3_transition_rule_thresholds :
    ∀ n : Int,
      (stepCell CellState.Alive n = CellState.Alive ↔ (EB ≤ n ∧ n ≤ EH))
      ∧ ((EB ≤ n ∧ n ≤ EH) ↔ (4 ≤ n ∧ n ≤ 5))
      ∧ (stepCell CellState.Alive n = CellState.Dead ↔ ¬(4 ≤ n ∧ n ≤ 5))
      ∧ (stepCell CellState.Dead n = CellState.Alive ↔ n = 5)
      ∧ (stepCell CellState.Dead n = CellState.Dead ↔ n ≠ 5)
      ∧ stepCell CellState.Alive 4 = CellState.Alive
      ∧ stepCell CellState.Alive 6 = CellState.Dead
      ∧ stepCell CellState.Dead 5 = CellState.Alive
      ∧ stepCell CellState.Dead 4 = CellState.Dead := by
  intro n
  refine ⟨?_, ?_, ?_, ?_, ?_, by decide, by decide, by decide, by decide⟩ <;>
    simp only [stepCell, EB, EH, FB, FH] <;> split_ifs <;> simp_all <;> omega

/-! ### All-Dead stability and panic-freedom of the tick -/

/-- Every cell present in the grid is Dead. -/
def AllDead (g : Grid) : Prop :=
  ∀ p c, g.get_cell p = some c → c.state = CellState.Dead

lemma get_cell_mut_eq (g : Grid) (p : Position) : g.get_cell_mut p = g.get_cell p := rfl

lemma isAliveAt_false_of_allDead (g : Grid) (h : AllDead g) (q : Position) :
    isAliveAt g q = false := by
  rw [isAliveAt]
  cases hq : g.get_cell q with
  | none => rfl
  | some cell =>
      have hcs := h q cell hq
      simp [Cell.is_alive, hcs]

lemma live_neighbors_allDead (g : Grid) (h : AllDead g) (p : Position) :
    live_neighbors g p = 0 := by
  rw [live_neighbors_repr]
  have hfil : (mooreList p).filter (fun q => isAliveAt g q) = [] := by
    rw [List.filter_eq_nil_iff]
    intro q _
    simp [isAliveAt_false_of_allDead g h q]
  rw [hfil]
  rfl

lemma tickCell_allDead (g : Grid) (hg : AllDead g) (p : Position) (g2 : Grid)
    (h : tickCell g p = some g2) : AllDead g2 := by
  rw [tickCell] at h
  cases hp : g.get_cell_mut p with
  | none => rw [hp] at h; exact absurd h (by simp)
  | some cell =>
      rw [hp] at h
      simp only [Option.some.injEq] at h
      subst h
      intro q c hc
      replace hc : (if q = p then some (Cell.new (stepCell cell.state (live_neighbors g p)))
          else g.cells q) = some c := hc
      by_cases hqp : q = p
      · rw [if_pos hqp, Option.some.injEq] at hc
        have hcs : cell.state = CellState.Dead := hg p cell (by rw [← get_cell_mut_eq]; exact hp)
        subst hc
        show (Cell.new (stepCell cell.state (live_neighbors g p))).state = CellState.Dead
        rw [live_neighbors_allDead g hg p, hcs]
        rfl
      · rw [if_neg hqp] at hc
        exact hg q c hc

lemma pps_allDead (o : List Position) :
    ∀ g g2 : Grid, AllDead g → print_position_system g o = some g2 → AllDead g2 := by
  induction o with
  | nil =>
      intro g g2 hg h
      rw [print_position_system] at h
      simp only [Option.some.injEq] at h
      exact h ▸ hg
  | cons p rest ih =>
      intro g g2 hg h
      rw [print_position_system] at h
      cases hp : tickCell g p with
      | none => rw [hp] at h; exact absurd h (by simp)
      | some gmid =>
          rw [hp] at h
          exact ih gmid g2 (tickCell_allDead g hg p gmid hp) h

/-- C8: a grid in which every present cell is Dead stays entirely Dead
after any number of ticks (each run over any processing order): 0 live
neighbors never satisfies the birth range `FB..FH = 5..5`. -/
theorem c8_all_dead_stable (g : Grid) (os : List (List Position)) (g2 : Grid)
    (hg : AllDead g) (h : runTicks g os = some g2) : AllDead g2 := by
  induction os generalizing g with
  | nil =>
      rw [runTicks] at h
      simp only [Option.some.injEq] at h
      exact h ▸ hg
  | cons o os ih =>
      rw [runTicks] at h
      cases ho : print_position_system g o with
      | none => rw [ho] at h; exact absurd h (by simp)
      | some gmid =>
          rw [ho] at h
          exact ih gmid (pps_allDead o g gmid hg ho) h

lemma allDead_new_dead (width height depth : Int) :
    AllDead (Grid.new width height depth (fun _ => CellState.Dead)) := by
  intro p c hc
  rw [Grid.new_get_cell] at hc
  by_cases hp : inBox width height depth p
  · rw [if_pos hp, Option.some.injEq] at hc
    rw [← hc]
    rfl
  · rw [if_neg hp] at hc
    exact absurd hc (by simp)

theorem c8_all_dead_stable_witness :
    AllDead ⟨fun q => if q = Position.new 0 0 0 then some (Cell.new CellState.Dead)
                      else (Grid.new 1 1 1 (fun _ => CellState.Dead)).cells q⟩ :=
  c8_all_dead_stable (Grid.new 1 1 1 (fun _ => CellState.Dead)) [[Position.new 0 0 0]] _
    (allDead_new_dead 1 1 1) rfl

/-- C10: when every queried position has a cell in the grid (as the setup
spawns exactly one entity per grid key), the tick's `get_cell_mut(..).unwrap()`
never panics, and the pass only rewrites the `state` of existing cells: the
grid's key set is unchanged. -/
theorem c10_tick_no_panic (g : Grid) (o : List Position)
    (h : ∀ p ∈ o, (g.get_cell p).isSome = true) :
    ∃ g2 : Grid, print_position_system g o = some g2
      ∧ ∀ q : Position, (g2.get_cell q).isSome = (g.get_cell q).isSome := by
  induction o generalizing g with
  | nil => exact ⟨g, rfl, fun q => rfl⟩
  | cons p rest ih =>
      have hp := h p (List.mem_cons_self p rest)
      cases hc : g.get_cell p with
      | none => rw [hc] at hp; exact absurd hp (by simp)
      | some cell =>
          have htc : tickCell g p
              = some ⟨fun q => if q = p
                  then some (Cell.new (stepCell cell.state (live_neighbors g p)))
                  else g.cells q⟩ := by
            rw [tickCell, get_cell_mut_eq, hc]
          set gmid : Grid := ⟨fun q => if q = p
              then some (Cell.new (stepCell cell.state (live_neighbors g p)))
              else g.cells q⟩ with hgmid
          have hsame : ∀ q : Position, (gmid.get_cell q).isSome = (g.get_cell q).isSome := by
            intro q
            by_cases hqp : q = p
            · subst hqp
              rw [Grid.get_cell, hgmid]
              simp only [if_pos rfl, Option.isSome_some]
              rw [hc]
              rfl
            · rw [Grid.get_cell, hgmid]
              simp only [if_neg hqp]
              rfl
          obtain ⟨g2, hg2, hg2same⟩ := ih gmid (by
            intro r hr
            rw [hsame r]
            exact h r (List.mem_cons_of_mem p hr))
          refine ⟨g2, ?_, fun q => (hg2same q).trans (hsame q)⟩
          rw [print_position_system, htc]
          exact hg2

theorem c10_tick_no_panic_witness :
    (∀ p ∈ [Position.new 0 0 0],
        ((Grid.new 1 1 1 (fun _ => CellState.Dead)).get_cell p).isSome = true)
    ∧ ∃ g2 : Grid,
        print_position_system (Grid.new 1 1 1 (fun _ => CellState.Dead)) [Position.new 0 0 0]
          = some g2
        ∧ ∀ q : Position, (g2.get_cell q).isSome
            = ((Grid.new 1 1 1 (fun _ => CellState.Dead)).get_cell q).isSome :=
  ⟨by decide, c10_tick_no_panic (Grid.new 1 1 1 (fun _ => CellState.Dead))
    [Position.new 0 0 0] (by decide)⟩

/-! ### Determinism of the tick given the processing order -/

/-- Two grids that agree on every lookup. -/
def gridEqv (g1 g2 : Grid) : Prop := ∀ p : Position, g1.get_cell p = g2.get_cell p

lemma tickCell_none (g : Grid) (p : Position) (hc : g.get_cell p = none) :
    tickCell g p = none := by
  show (match g.get_cell_mut p with
    | none => (none : Option Grid)
    | some cell => some ⟨fun q => if q = p
        then some (Cell.new (stepCell cell.state (live_neighbors g p)))
        else g.cells q⟩) = none
  rw [get_cell_mut_eq, hc]

lemma tickCell_some (g : Grid) (p : Position) (cell : Cell) (hc : g.get_cell p = some cell) :
    tickCell g p = some ⟨fun q => if q = p
        then some (Cell.new (stepCell cell.state (live_neighbors g p)))
        else g.cells q⟩ := by
  show (match g.get_cell_mut p with
    | none => (none : Option Grid)
    | some cell => some ⟨fun q => if q = p
        then some (Cell.new (stepCell cell.state (live_neighbors g p)))
        else g.cells q⟩) = _
  rw [get_cell_mut_eq, hc]

lemma isAliveAt_congr (g1 g2 : Grid) (h : gridEqv g1 g2) (q : Position) :
    isAliveAt g1 q = isAliveAt g2 q := by
  rw [isAliveAt, isAliveAt, h q]

lemma live_neighbors_congr (g1 g2 : Grid) (h : gridEqv g1 g2) (p : Position) :
    live_neighbors g1 p = live_neighbors g2 p := by
  rw [live_neighbors_repr, live_neighbors_repr]
  have hfil : (mooreList p).filter (fun q => isAliveAt g1 q)
      = (mooreList p).filter (fun q => isAliveAt g2 q) :=
    List.filter_congr (fun q _ => isAliveAt_congr g1 g2 h q)
  rw [hfil]

lemma pps_congr (o : List Position) :
    ∀ g1 g2 : Grid, gridEqv g1 g2 →
      (print_position_system g1 o = none ∧ print_position_system g2 o = none)
      ∨ ∃ r1 r2 : Grid, print_position_system g1 o = some r1
          ∧ print_position_system g2 o = some r2 ∧ gridEqv r1 r2 := by
  induction o with
  | nil =>
      intro g1 g2 h
      exact Or.inr ⟨g1, g2, rfl, rfl, h⟩
  | cons p rest ih =>
      intro g1 g2 h
      cases hc : g1.get_cell p with
      | none =>
          have hc2 : g2.get_cell p = none := by rw [← h p]; exact hc
          left
          constructor
          · rw [print_position_system, tickCell_none g1 p hc]
          · rw [print_position_system, tickCell_none g2 p hc2]
      | some cell =>
          have hc2 : g2.get_cell p = some cell := by rw [← h p]; exact hc
          have heq : gridEqv
              ⟨fun q => if q = p then some (Cell.new (stepCell cell.state (live_neighbors g1 p)))
                  else g1.cells q⟩
              ⟨fun q => if q = p then some (Cell.new (stepCell cell.state (live_neighbors g2 p)))
                  else g2.cells q⟩ := by
            intro q
            show (if q = p then some (Cell.new (stepCell cell.state (live_neighbors g1 p)))
                else g1.cells q)
              = (if q = p then some (Cell.new (stepCell cell.state (live_neighbors g2 p)))
                else g2.cells q)
            by_cases hqp : q = p
            · rw [if_pos hqp, if_pos hqp, live_neighbors_congr g1 g2 h p]
            · rw [if_neg hqp, if_neg hqp]
              exact h q
          rcases ih _ _ heq with ⟨h1, h2⟩ | ⟨r1, r2, h1, h2, hr⟩
          · left
            constructor
            · rw [print_position_system, tickCell_some g1 p cell hc]
              exact h1
            · rw [print_position_system, tickCell_some g2 p cell hc2]
              exact h2
          · right
            refine ⟨r1, r2, ?_, ?_, hr⟩
            · rw [print_position_system, tickCell_some g1 p cell hc]
              exact h1
            · rw [print_position_system, tickCell_some g2 p cell hc2]
              exact h2

/-- C2 amended: the per-tick update is deterministic given the pre-tick
grid state *and* the order in which the query yields the cells: it draws no
randomness, and two runs over equal orders from grids that agree on every
lookup give the same result at every cell.  (The result can, however,
depend on the order — see the counterexample.) -/
theorem c2_deterministic_given_state_and_order (g1 g2 : Grid) (o : List Position)
    (h : ∀ p : Position, g1.get_cell p = g2.get_cell p) (q : Position) :
    (print_position_system g1 o).map (fun g => g.get_cell q)
      = (print_position_system g2 o).map (fun g => g.get_cell q) := by
  rcases pps_congr o g1 g2 h with ⟨h1, h2⟩ | ⟨r1, r2, h1, h2, hr⟩
  · rw [h1, h2]
  · rw [h1, h2]
    show some (r1.get_cell q) = some (r2.get_cell q)
    rw [hr q]

theorem c2_deterministic_witness :
    (print_position_system (Grid.new 1 1 1 (fun _ => CellState.Dead)) [Position.new 0 0 0]).map
        (fun g => g.get_cell (Position.new 0 0 0))
      = (print_position_system
            ⟨fun p => if inBox 1 1 1 p then some (Cell.new CellState.Dead) else none⟩
            [Position.new 0 0 0]).map
          (fun g => g.get_cell (Position.new 0 0 0)) :=
  c2_deterministic_given_state_and_order
    (Grid.new 1 1 1 (fun _ => CellState.Dead))
    ⟨fun p => if inBox 1 1 1 p then some (Cell.new CellState.Dead) else none⟩
    [Position.new 0 0 0]
    (fun p => Grid.new_get_cell 1 1 1 (fun _ => CellState.Dead) p)
    (Position.new 0 0 0)

/-! ### Concrete grids exercising the in-place single pass -/

/-- The five live cells of the C1/C2 scenario inside a 3×3×3 box. -/
def aliveSetC1 : List Position :=
  [Position.new 0 0 0, Position.new 2 0 0, Position.new 0 2 2,
   Position.new 2 2 2, Position.new 0 1 1]

/-- Seed choosing Alive exactly on `aliveSetC1`. -/
def seedC1 : Position → CellState :=
  fun p => if p ∈ aliveSetC1 then CellState.Alive else CellState.Dead

/-- A 3×3×3 grid in which the center is Dead with exactly 5 live neighbors,
one of which — `(0,1,1)` — dies during the tick. -/
def gridC1 : Grid := Grid.new 3 3 3 seedC1

/-- The center coordinate of a 3×3×3 box. -/
def centerPos : Position := Position.new 1 1 1

/-- A processing order that visits the center first. -/
def centerFirstOrder : List Position :=
  centerPos :: (boxPositions 3 3 3).filter (fun p => decide (p ≠ centerPos))

set_option maxRecDepth 100000 in
/-- C2 counterexample: from the same pre-tick grid state, two runs of the
tick over different (both legitimate) query orders disagree on the
resulting state of the center cell — the in-place pass is not a function of
the pre-tick state alone. -/
theorem c2_order_dependence_counterexample :
    centerFirstOrder.Perm (boxPositions 3 3 3)
    ∧ (print_position_system gridC1 (boxPositions 3 3 3)).map (fun g => g.get_cell centerPos)
        = some (some (Cell.new CellState.Dead))
    ∧ (print_position_system gridC1 centerFirstOrder).map (fun g => g.get_cell centerPos)
        = some (some (Cell.new CellState.Alive)) := by
  decide

set_option maxRecDepth 100000 in
/-- C1: the code's single pass does *not* compute each cell's next state
from the pre-tick snapshot.  In `gridC1` the center has 5 live neighbors
pre-tick, so the snapshot semantics the spec prescribes births it; but the
in-place pass (processing in the grid-construction order, where `(0,1,1)`
precedes the center) sees that neighbor already updated to Dead and leaves
the center Dead. -/
theorem c1_single_pass_reads_updated_neighbors :
    live_neighbors gridC1 centerPos = 5
    ∧ (tickSnapshot gridC1).get_cell centerPos = some (Cell.new CellState.Alive)
    ∧ (print_position_system gridC1 (boxPositions 3 3 3)).map (fun g => g.get_cell centerPos)
        = some (some (Cell.new CellState.Dead)) := by
  decide

/-- The all-Alive seed. -/
def allAliveSeed : Position → CellState := fun _ => CellState.Alive

/-- The fully Alive 3×3×3 lattice. -/
def grid333 : Grid := Grid.new 3 3 3 allAliveSeed

/-- A query order (corners, then the x- and y-axis edge cells, then five
face centers, then the center, then the rest) under which 21 of the
center's neighbors die before the center is processed. -/
def adversarialOrder : List Position :=
  [Position.new 0 0 0, Position.new 0 0 2, Position.new 0 2 0, Position.new 0 2 2,
   Position.new 2 0 0, Position.new 2 0 2, Position.new 2 2 0, Position.new 2 2 2,
   Position.new 1 0 0, Position.new 1 0 2, Position.new 1 2 0, Position.new 1 2 2,
   Position.new 0 1 0, Position.new 0 1 2, Position.new 2 1 0, Position.new 2 1 2,
   Position.new 0 1 1, Position.new 2 1 1, Position.new 1 1 0, Position.new 1 1 2,
   Position.new 1 0 1,
   Position.new 1 1 1,
   Position.new 1 2 1, Position.new 0 0 1, Position.new 0 2 1,
   Position.new 2 0 1, Position.new 2 2 1]

set_option maxRecDepth 100000 in
/-- C7: in the fully Alive 3×3×3 lattice the center has exactly 26 live
neighbors pre-tick, and the spec's snapshot semantics kills it (26 > EH=5);
but the code's in-place pass is order-dependent, and under the adversarial
(still legitimate — a permutation of the grid's key set) query order only 5
of the center's neighbors are still alive when it is processed, so the code
leaves the center Alive. -/
theorem c7_all_alive_center :
    live_neighbors grid333 centerPos = 26
    ∧ (tickSnapshot grid333).get_cell centerPos = some (Cell.new CellState.Dead)
    ∧ adversarialOrder.Perm (boxPositions 3 3 3)
    ∧ (print_position_system grid333 adversarialOrder).map (fun g => g.get_cell centerPos)
        = some (some (Cell.new CellState.Alive)) := by
  decide

/-! ### Corner-cell bound -/

lemma live_neighbors_countP (g : Grid) (p : Position) :
    live_neighbors g p
      = (mooreOffsets.countP (fun t => isAliveAt g (translate p t)) : Int) := by
  rw [live_neighbors_repr, ← List.countP_eq_length_filter, mooreList, List.countP_map]
  rfl

lemma isAliveAt_new_inBox (width height depth : Int) (seed : Position → CellState)
    (q : Position) (h : isAliveAt (Grid.new width height depth seed) q = true) :
    inBox width height depth q := by
  rw [isAliveAt] at h
  by_cases hq : inBox width height depth q
  · exact hq
  · rw [Grid.new_get_cell, if_neg hq] at h
    exact absurd h (by simp)

/-- Along one axis: the offsets an in-box neighbor of an extremal coordinate
can have (non-negative at the low face, non-positive at the high face). -/
def halfOff (s : Bool) (d : Int) : Bool :=
  match s with
  | true => decide (0 ≤ d)
  | false => decide (d ≤ 0)

/-- The offsets compatible with a corner whose extremal sides are given by
the three flags (`true` = low face). -/
def cornerOff (sx sy sz : Bool) (t : Int × Int × Int) : Bool :=
  halfOff sx t.1 && halfOff sy t.2.1 && halfOff sz t.2.2

lemma countP_cornerOff (sx sy sz : Bool) :
    mooreOffsets.countP (cornerOff sx sy sz) = 7 := by
  cases sx <;> cases sy <;> cases sz <;> decide

lemma halfOff_corner (e w d : Int) (hcorner : e = 0 ∨ e = w - 1)
    (h1 : 0 ≤ e + d) (h2 : e + d < w) : halfOff (decide (e = 0)) d = true := by
  by_cases h0 : e = 0
  · rw [decide_eq_true h0]
    simp only [halfOff, decide_eq_true_eq]
    omega
  · rw [decide_eq_false h0]
    simp only [halfOff, decide_eq_true_eq]
    rcases hcorner with h | h
    · exact absurd h h0
    · omega

/-- A coordinate at one of the eight corners of the box. -/
def IsCorner (width height depth : Int) (p : Position) : Prop :=
  (p.x = 0 ∨ p.x = width - 1) ∧ (p.y = 0 ∨ p.y = height - 1) ∧ (p.z = 0 ∨ p.z = depth - 1)

/-- C9: at a corner of the box, `live_neighbors` is at most 7 whatever the
cell states anywhere in the grid: at least 19 of the 26 examined
coordinates fall outside the box and contribute nothing. -/
theorem c9_corner_at_most_seven (width height depth : Int) (seed : Position → CellState)
    (p : Position) (hc : IsCorner width height depth p) :
    live_neighbors (Grid.new width height depth seed) p ≤ 7 := by
  obtain ⟨hx, hy, hz⟩ := hc
  rw [live_neighbors_countP]
  have hmono : mooreOffsets.countP
        (fun t => isAliveAt (Grid.new width height depth seed) (translate p t))
      ≤ mooreOffsets.countP
        (cornerOff (decide (p.x = 0)) (decide (p.y = 0)) (decide (p.z = 0))) := by
    apply List.countP_mono_left
    intro t ht hal
    have hin := isAliveAt_new_inBox width height depth seed (translate p t) hal
    simp only [translate, Position.new, inBox] at hin
    obtain ⟨h1, h2, h3, h4, h5, h6⟩ := hin
    simp only [cornerOff, Bool.and_eq_true]
    exact ⟨⟨halfOff_corner p.x width t.1 hx h1 h2,
      halfOff_corner p.y height t.2.1 hy h3 h4⟩,
      halfOff_corner p.z depth t.2.2 hz h5 h6⟩
  have h7 := countP_cornerOff (decide (p.x = 0)) (decide (p.y = 0)) (decide (p.z = 0))
  omega

theorem c9_corner_at_most_seven_witness :
    IsCorner 2 2 2 (Position.new 0 0 0)
    ∧ live_neighbors (Grid.new 2 2 2 allAliveSeed) (Position.new 0 0 0) ≤ 7 :=
  ⟨⟨Or.inl rfl, Or.inl rfl, Or.inl rfl⟩,
    c9_corner_at_most_seven 2 2 2 allAliveSeed (Position.new 0 0 0)
      ⟨Or.inl rfl, Or.inl rfl, Or.inl rfl⟩⟩

end GoL
